import Mathlib

/-!
Shallow embedding of the sector-rotation analysis engine of this repository
(src/fetch_data.py, together with the duplicated engine variant in
src/sector_analysis.py), and proofs of the specified properties.

Python floats are modelled as `PFloat`: either `nan` or an exact rational
value.  The Python/NumPy operations the engine uses propagate `nan` the way
CPython and NumPy do on the paths the engine exercises: comparisons with
`nan` are false, Python `min`/`max` keep their first argument when the
comparison against the second is false, `np.clip` propagates `nan`, and
`round` of `nan` is `nan`.  Numeric literals of the source are read as the
exact decimals they denote.
-/

inductive PFloat where
  | nan : PFloat
  | val (q : ℚ) : PFloat
  deriving DecidableEq

/-- Model of np.isnan on a scalar. -/
def pisnan : PFloat → Bool
  | .nan => true
  | .val _ => false

/-- Extract the rational value of a defined PFloat (junk value 0 on nan). -/
def ptoQ : PFloat → ℚ
  | .nan => 0
  | .val q => q

/-- Python builtin min of two floats: returns the second argument only when
the comparison second-less-than-first is true; a comparison involving nan is
false, so the first argument wins whenever either argument is nan. -/
def pmin : PFloat → PFloat → PFloat
  | .nan, _ => .nan
  | .val x, .nan => .val x
  | .val x, .val y => .val (min x y)

/-- Python builtin max of two floats, mirror image of `pmin`. -/
def pmax : PFloat → PFloat → PFloat
  | .nan, _ => .nan
  | .val x, .nan => .val x
  | .val x, .val y => .val (max x y)

/-- Float addition; nan propagates. -/
def padd : PFloat → PFloat → PFloat
  | .val x, .val y => .val (x + y)
  | _, _ => .nan

/-- Float multiplication; nan propagates. -/
def pmul : PFloat → PFloat → PFloat
  | .val x, .val y => .val (x * y)
  | _, _ => .nan

/-- Float division; nan propagates.  The division is exact rational division
(in particular the Lean convention x / 0 = 0 applies); the NumPy infinity
at a zero denominator is outside every property considered here. -/
def pdiv : PFloat → PFloat → PFloat
  | .val x, .val y => .val (x / y)
  | _, _ => .nan

/-- Float strict less-than; any comparison involving nan is false. -/
def pltb : PFloat → PFloat → Bool
  | .val x, .val y => decide (x < y)
  | _, _ => false

/-- Float strict greater-than; any comparison involving nan is false. -/
def pgtb : PFloat → PFloat → Bool
  | .val x, .val y => decide (y < x)
  | _, _ => false

/-- Float greater-or-equal; any comparison involving nan is false. -/
def pgeb : PFloat → PFloat → Bool
  | .val x, .val y => decide (y ≤ x)
  | _, _ => false

/-- Float equality test; nan is not equal to anything, itself included. -/
def peqb : PFloat → PFloat → Bool
  | .val x, .val y => decide (x = y)
  | _, _ => false

/-- Model of np.clip(x, 0.0, 1.0) on a scalar; nan propagates. -/
def pclip01 : PFloat → PFloat
  | .nan => .nan
  | .val x => .val (min 1 (max 0 x))

/-- Round a rational to the nearest integer, ties to even (the rounding of
the Python builtin round). -/
def rhalfEven (x : ℚ) : ℤ :=
  if x - ⌊x⌋ < 1 / 2 then ⌊x⌋
  else if 1 / 2 < x - ⌊x⌋ then ⌊x⌋ + 1
  else if Even ⌊x⌋ then ⌊x⌋ else ⌊x⌋ + 1

/-- Model of Python round(x, 1): one decimal place, ties to even; round of
nan is nan. -/
def pround1 : PFloat → PFloat
  | .nan => .nan
  | .val x => .val ((rhalfEven (10 * x) : ℚ) / 10)

/-- One cleaned daily bar, carrying the columns the engine reads.  A bar
series handed to the indicator computation is the post-dropna frame: rows
with missing fields have been dropped, so every field is a plain number. -/
structure Bar where
  high : ℚ
  low : ℚ
  close : ℚ
  volume : ℚ
  deriving DecidableEq

/-- True-range column given the previous close of the first listed bar:
max(high - low, abs(high - prevClose), abs(low - prevClose)) per row. -/
def trFrom (prev : ℚ) : List Bar → List ℚ
  | [] => []
  | b :: rest =>
      max (b.high - b.low) (max |b.high - prev| |b.low - prev|) :: trFrom b.close rest

/-- True-range column of a bar series; Close.shift(1).fillna(Close) makes the
first row use its own close as the previous close. -/
def trList : List Bar → List ℚ
  | [] => []
  | b :: rest => trFrom b.close (b :: rest)

/-- Value of a trailing simple moving average (pandas rolling(w).mean()) at
the last row of a column: nan until w values have accumulated, then the
exact mean of the last w values. -/
def rollMeanLast (w : ℕ) (xs : List ℚ) : PFloat :=
  if xs.length < w then .nan
  else .val ((xs.drop (xs.length - w)).sum / (w : ℚ))

/-- The per-symbol metrics snapshot (the dict built by
compute_metrics_for_ticker from the last row of the derived frame). -/
structure Metrics where
  close : PFloat
  volume : PFloat
  rvol20 : PFloat
  atrpct : PFloat
  a20 : PFloat
  a50 : PFloat
  a200 : PFloat
  ret5 : PFloat
  above20 : PFloat
  above50 : PFloat
  above200 : PFloat
  deriving DecidableEq

/-- The snapshot fields read off the last row of the derived frame of a
nonempty cleaned series d whose last bar is last. -/
def mkSnap (d : List Bar) (last : Bar) : Metrics :=
  let closes := d.map Bar.close
  let sma20 := rollMeanLast 20 closes
  let sma50 := rollMeanLast 50 closes
  let sma200 := rollMeanLast 200 closes
  { close := .val last.close
    volume := .val last.volume
    rvol20 := pdiv (.val last.volume) (rollMeanLast 20 (d.map Bar.volume))
    atrpct := pmul (pdiv (rollMeanLast 20 (trList d)) (.val last.close)) (.val 100)
    a20 := sma20
    a50 := sma50
    a200 := sma200
    ret5 :=
      if d.length < 6 then .nan
      else .val (last.close / closes.getD (d.length - 6) 0 - 1)
    above20 := .val (if pgtb (.val last.close) sma20 then 1 else 0)
    above50 := .val (if pgtb (.val last.close) sma50 then 1 else 0)
    above200 := .val (if pgtb (.val last.close) sma200 then 1 else 0) }

/-- compute_metrics_for_ticker of src/fetch_data.py on an already-cleaned
bar series: (None, None) on an empty series, otherwise the snapshot read
off the last row together with the derived series. -/
def compute_metrics_for_ticker (d : List Bar) : Option Metrics × Option (List Bar) :=
  match d.getLast? with
  | none => (none, none)
  | some last => (some (mkSnap d last), some d)

/-- The IndicatorEngine contract computeSnapshot: just the snapshot half of
compute_metrics_for_ticker. -/
def computeSnapshot (d : List Bar) : Option Metrics :=
  (compute_metrics_for_ticker d).1

/-- Model of np.mean on a list of floats: nan if any entry is nan (or the
list is empty, where NumPy also yields nan), else sum divided by length. -/
def pmean (xs : List PFloat) : PFloat :=
  if xs.any pisnan then .nan
  else if xs.length = 0 then .nan
  else .val ((xs.map ptoQ).sum / (xs.length : ℚ))

/-- sector_breadth of src/fetch_data.py: mean of the above20 flags over the
leaders that have a snapshot; nan when no leader has one. -/
def sector_breadth (leader_metrics : List (Option Metrics)) : PFloat :=
  let flags := (leader_metrics.filterMap id).map Metrics.above20
  if flags.length = 0 then .nan else pmean flags

/-- score_sector of src/fetch_data.py (momo_cut is the keyword argument,
default 0.0 at every call site). -/
def score_sector (metrics_etf : Option Metrics) (breadth : PFloat) (momo_cut : PFloat) : PFloat :=
  match metrics_etf with
  | none => .nan
  | some m =>
    let rvol := pdiv (pmin m.rvol20 (.val 2)) (.val 2)
    let trend := pdiv (padd (padd m.above20 m.above50) m.above200) (.val 3)
    let br := if pisnan breadth then PFloat.val 0 else breadth
    let momo := pmax m.ret5 momo_cut
    let momo_norm := pclip01 (pdiv (padd momo (.val (1 / 20))) (.val (1 / 10)))
    pround1 (padd (padd (padd (pmul (.val 40) rvol) (pmul (.val 20) trend))
      (pmul (.val 25) br)) (pmul (.val 15) momo_norm))

/-- One candidate row (ticker, rvol20, ret5, atrpct, eligibility flag) of
pick_top_components. -/
structure CompRow where
  ticker : String
  rvol : PFloat
  ret5 : PFloat
  atrpct : PFloat
  ok : Bool
  deriving DecidableEq

/-- The row built for a ticker that has a snapshot; the eligibility flag is
above20 == 1.0 and rvol20 > 1.2 and atrpct >= 2.0. -/
def compRowOf (t : String) (m : Metrics) : CompRow :=
  ⟨t, m.rvol20, m.ret5, m.atrpct,
    peqb m.above20 (.val 1) && pgtb m.rvol20 (.val (6 / 5)) && pgeb m.atrpct (.val 2)⟩

/-- Python comparison of the sort keys (atrpct, rvol, ret5) as tuples:
lexicographic, stepping past a component only when it compares equal, with
float equality and less-than as in `peqb` and `pltb`. -/
def keyLT (a b : CompRow) : Bool :=
  if peqb a.atrpct b.atrpct then
    if peqb a.rvol b.rvol then pltb a.ret5 b.ret5
    else pltb a.rvol b.rvol
  else pltb a.atrpct b.atrpct

/-- Insert an element into a list, placing it before the first element x
with r a x true (stable insertion). -/
def ordIns {α : Type} (r : α → α → Bool) (a : α) : List α → List α
  | [] => [a]
  | b :: l => if r a b then a :: b :: l else b :: ordIns r a l

/-- Stable insertion sort with respect to the boolean relation r, where
r a b means a may stand before b. -/
def isort {α : Type} (r : α → α → Bool) : List α → List α
  | [] => []
  | a :: l => ordIns r a (isort r l)

/-- The placement relation of Python list.sort(key, reverse=True): a row
stands before another exactly when its key is not strictly below the other
key, which on comparable keys is the stable descending order. -/
def rowBefore (a b : CompRow) : Bool := !(keyLT a b)

/-- pick_top_components of src/fetch_data.py: one row per ticker with a
snapshot, sorted stably descending by the key (atrpct, rvol20, ret5);
returns the eligible rows of the sorted order truncated to n, and the full
sorted order truncated to n.  The mapping is an association list in dict
iteration order. -/
def pick_top_components (metrics_map : List (String × Option Metrics)) (n : ℕ) :
    List CompRow × List CompRow :=
  let rows := metrics_map.filterMap (fun p => p.2.map (compRowOf p.1))
  let sorted := isort rowBefore rows
  let good := sorted.filter CompRow.ok
  (good.take n, sorted.take n)

/-- The per-run download cache together with a count of how many times the
underlying data source has actually been contacted (the count instruments
the yf.download call for the cache property; it is not program state). -/
structure CacheState (D : Type) where
  entries : List ((List String × ℕ) × D)
  fetchCount : ℕ

/-- Lookup in the cache dict by key. -/
def cacheLookup {D : Type} (k : List String × ℕ) :
    List ((List String × ℕ) × D) → Option D
  | [] => none
  | (k2, d) :: rest => if k2 = k then some d else cacheLookup k rest

/-- Python sorted(set(tickers)): the sorted list of the distinct tickers. -/
def canonTickers (tickers : List String) : List String :=
  List.insertionSort (fun a b => a ≤ b) tickers.dedup

/-- download_daily of src/fetch_data.py over an abstract data source fetch
(standing for the yf.download call, date-window computation included):
canonicalize the ticker list, fail on an empty list, return the cached
frame on a hit, otherwise fetch, store and return. -/
def download_daily {D : Type} (fetch : List String → ℕ → D)
    (tickers : List String) (period_days : ℕ) (st : CacheState D) :
    Except String (D × CacheState D) :=
  let ts := canonTickers tickers
  if ts = [] then .error "No tickers to download"
  else
    match cacheLookup (ts, period_days) st.entries with
    | some df => .ok (df, st)
    | none =>
        let df := fetch ts period_days
        .ok (df, ⟨((ts, period_days), df) :: st.entries, st.fetchCount + 1⟩)

/-- The SECTOR_ETFS table of src/fetch_data.py in dict insertion order. -/
def SECTOR_ETFS : List (String × String) :=
  [("SMH", "Semiconductors"), ("XLK", "Tech"), ("XLC", "Comm Services"),
   ("XLF", "Financials"), ("XLE", "Energy"), ("XBI", "Biotech"),
   ("XLV", "Healthcare"), ("XLI", "Industrials"), ("IWM", "Small Caps"),
   ("QQQ", "Nasdaq"), ("SPY", "S&P")]

/-- The LEADERS table of src/fetch_data.py. -/
def LEADERS : List (String × List String) :=
  [("SMH", ["NVDA", "AMD", "AVGO", "TSM", "MU", "ASML", "AMAT", "SMCI"]),
   ("XLK", ["MSFT", "AAPL", "META", "GOOGL", "CRM", "ADBE", "NOW"]),
   ("XLF", ["JPM", "BAC", "MS", "GS", "C", "SCHW"]),
   ("XLE", ["XOM", "CVX", "SLB", "COP", "EOG"]),
   ("XBI", ["VRTX", "REGN", "LLY", "MRNA", "CRSP", "BEAM"]),
   ("XLV", ["UNH", "JNJ", "PFE", "ABBV", "DHR", "TMO"]),
   ("XLI", ["CAT", "DE", "HON", "GE", "BA"]),
   ("IWM", ["PLTR", "SMCI", "CELH", "RBLX", "RIVN", "AFRM"]),
   ("QQQ", ["NVDA", "MSFT", "AAPL", "META", "AMZN", "GOOGL"]),
   ("SPY", ["MSFT", "AAPL", "NVDA", "AMZN", "META", "GOOGL"])]

/-- The keys of the SECTOR_ETFS dict, in order. -/
def sectorKeys : List String := SECTOR_ETFS.map Prod.fst

/-- LEADERS.get(etf, []). -/
def leadersOf (etf : String) : List String := (LEADERS.lookup etf).getD []

/-- Step 1 of build_sector_dashboard: a truthy (nonempty) selection is
intersected with the known ETF dict, unknown symbols silently dropped; a
None or empty selection falls back to the full key list; an empty
resolution raises ValueError, modelled as the error case. -/
def resolve_etfs (selected : Option (List String)) : Except String (List String) :=
  let etfs :=
    match selected with
    | some l => if l = [] then sectorKeys else l.filter (fun e => sectorKeys.contains e)
    | none => sectorKeys
  if etfs = [] then .error "No valid sector ETFs provided" else .ok etfs

/-- Steps 4 and 5 of build_sector_dashboard for one symbol, with the two
fallible stages abstracted: slice stands for df[t].dropna() (an exception
yields an empty frame, hence no snapshot) and comp for the
compute_metrics_for_ticker call (an exception is caught and recorded as no
snapshot; a normal return passes its metrics through). -/
def metricsOf (slice : String → Except String (List Bar))
    (comp : List Bar → Except String (Option Metrics)) (t : String) : Option Metrics :=
  match slice t with
  | .error _ => none
  | .ok bars =>
      if bars = [] then none
      else
        match comp bars with
        | .error _ => none
        | .ok m => m

/-- One sector row of the dashboard (the fields the verified properties
touch: score, breadth and candidate tickers). -/
structure SectorRow where
  etf : String
  sectorName : String
  score : PFloat
  breadth : PFloat
  topCandidates : List String
  deriving DecidableEq

/-- Step 6 of build_sector_dashboard for one ETF: breadth over the leader
snapshots that are present, score of the ETF snapshot against it, and the
eligible top-3 candidate tickers. -/
def buildRow (metrics : String → Option Metrics) (etf : String) (name : String) : SectorRow :=
  let leaders := leadersOf etf
  let leader_metrics := leaders.map metrics
  let br := sector_breadth (leader_metrics.filter Option.isSome)
  let sc := score_sector (metrics etf) br (.val 0)
  let comp := leaders.map (fun t => (t, metrics t))
  let best := (pick_top_components comp 3).1
  ⟨etf, name, sc, br, best.map CompRow.ticker⟩

/-- The row-assembly loop of build_sector_dashboard over the resolved ETF
list. -/
def build_sector_rows (metrics : String → Option Metrics) (etfs : List String) :
    List SectorRow :=
  etfs.map (fun etf => buildRow metrics etf ((SECTOR_ETFS.lookup etf).getD ""))

namespace SA

/-- sector_breadth as written in src/sector_analysis.py. -/
def sector_breadth (leader_metrics : List (Option Metrics)) : PFloat :=
  let flags := (leader_metrics.filterMap id).map Metrics.above20
  if flags.length = 0 then .nan else pmean flags

/-- score_sector as written in src/sector_analysis.py (np.clip there is not
wrapped in float(), which changes nothing about the value). -/
def score_sector (metrics_etf : Option Metrics) (breadth : PFloat) (momo_cut : PFloat) : PFloat :=
  match metrics_etf with
  | none => .nan
  | some m =>
    let rvol := pdiv (pmin m.rvol20 (.val 2)) (.val 2)
    let trend := pdiv (padd (padd m.above20 m.above50) m.above200) (.val 3)
    let br := if pisnan breadth then PFloat.val 0 else breadth
    let momo := pmax m.ret5 momo_cut
    let momo_norm := pclip01 (pdiv (padd momo (.val (1 / 20))) (.val (1 / 10)))
    pround1 (padd (padd (padd (pmul (.val 40) rvol) (pmul (.val 20) trend))
      (pmul (.val 25) br)) (pmul (.val 15) momo_norm))

/-- pick_top_components as written in src/sector_analysis.py. -/
def pick_top_components (metrics_map : List (String × Option Metrics)) (n : ℕ) :
    List CompRow × List CompRow :=
  let rows := metrics_map.filterMap (fun p => p.2.map (compRowOf p.1))
  let sorted := isort rowBefore rows
  let good := sorted.filter CompRow.ok
  (good.take n, sorted.take n)

end SA

/-- The rows built by pick_top_components before sorting (a named copy of
its first let-binding, for stating properties). -/
def rowsOf (metrics_map : List (String × Option Metrics)) : List CompRow :=
  metrics_map.filterMap (fun p => p.2.map (compRowOf p.1))

/-- The sort key of a candidate row read as a rational triple
(atrpct, rvol20, ret5); meaningful on rows whose key fields are defined. -/
def bkey (r : CompRow) : ℚ × ℚ × ℚ := (ptoQ r.atrpct, ptoQ r.rvol, ptoQ r.ret5)

/-- Strict lexicographic order on rational sort-key triples. -/
def qKeyLT (a b : ℚ × ℚ × ℚ) : Prop :=
  a.1 < b.1 ∨ (a.1 = b.1 ∧ (a.2.1 < b.2.1 ∨ (a.2.1 = b.2.1 ∧ a.2.2 < b.2.2)))

/-- A candidate row all of whose sort-key fields are defined numbers. -/
def rowDefined (r : CompRow) : Prop :=
  r.atrpct ≠ .nan ∧ r.rvol ≠ .nan ∧ r.ret5 ≠ .nan

/-- A junk metrics record used only as a getD default in concrete
witnesses. -/
def mjunk : Metrics :=
  ⟨.nan, .nan, .nan, .nan, .nan, .nan, .nan, .nan, .nan, .nan, .nan⟩

/-- A fixed concrete bar used by witnesses. -/
def wbar : Bar := ⟨2, 1, 3 / 2, 1000⟩

/-- Twenty identical bars: enough history for every 20-bar metric. -/
def wd20 : List Bar := List.replicate 20 wbar

/-- The snapshot of the twenty-bar witness series. -/
def wm20 : Metrics := (computeSnapshot wd20).getD mjunk

/-- Six identical bars: exactly enough history for ret5, not for rvol20. -/
def w6 : List Bar := List.replicate 6 wbar

/-- The snapshot of the six-bar witness series. -/
def w6m : Metrics := (computeSnapshot w6).getD mjunk

/-- The snapshot of a single-bar witness series. -/
def w1m : Metrics := (computeSnapshot [wbar]).getD mjunk

/-- A leader snapshot above its 20-day average. -/
def wma : Metrics := { mjunk with above20 := .val 1 }

/-- A leader snapshot below its 20-day average. -/
def wmb : Metrics := { mjunk with above20 := .val 0 }

/-- A snapshot with a negative rvol20: nothing in the engine clamps the
volume sub-score from below. -/
def mbad : Metrics :=
  { mjunk with
    rvol20 := .val (-10)
    ret5 := .val (1 / 50)
    above20 := .val 0
    above50 := .val 0
    above200 := .val 0 }

/-- The snapshot of the end-to-end scoring example (rvol20 1.8, all trend
flags set, ret5 0.02). -/
def mex : Metrics :=
  { mjunk with
    rvol20 := .val (9 / 5)
    ret5 := .val (1 / 50)
    above20 := .val 1
    above50 := .val 1
    above200 := .val 1 }

/-- The abstract data source of the cache witness. -/
def wfetch : List String → ℕ → ℕ := fun _ _ => 42

/-- The slicing stage of the C7 witness: one good bar for every symbol. -/
def wslice : String → Except String (List Bar) := fun _ => .ok [wbar]

/-- The indicator stage of the C7 witness: always raises. -/
def wcomp : List Bar → Except String (Option Metrics) := fun _ => .error "boom"

/-- A witness leader row with middling relative volume. -/
def wmA : Metrics :=
  { mjunk with
    rvol20 := .val 1
    ret5 := .val 0
    atrpct := .val 3 }

/-- A witness leader row tying wmA on atrpct but beating it on rvol20. -/
def wmC : Metrics :=
  { mjunk with
    rvol20 := .val 2
    ret5 := .val 0
    atrpct := .val 3 }

/-- The candidate map of the C4 witness: two snapshots and one symbol with
none. -/
def wmm : List (String × Option Metrics) :=
  [("A", some wmA), ("B", none), ("C", some wmC)]

theorem ordIns_perm {α : Type} (r : α → α → Bool) (a : α) (l : List α) :
    List.Perm (ordIns r a l) (a :: l) := by
  induction l with
  | nil => exact List.Perm.refl _
  | cons b t ih =>
      simp only [ordIns]
      by_cases h : r a b
      · simp [h]
      · simp only [if_neg h]
        exact (ih.cons b).trans (List.Perm.swap a b t)

theorem isort_perm {α : Type} (r : α → α → Bool) (l : List α) :
    List.Perm (isort r l) l := by
  induction l with
  | nil => exact List.Perm.refl _
  | cons a t ih => exact (ordIns_perm r a (isort r t)).trans (ih.cons a)

theorem pairwise_ordIns {α : Type} (r : α → α → Bool) (P : α → Prop)
    (htot : ∀ x y, P x → P y → r x y = true ∨ r y x = true)
    (htr : ∀ x y z, P x → P y → P z → r x y = true → r y z = true → r x z = true)
    (a : α) (l : List α) (hPa : P a) (hPl : ∀ x ∈ l, P x)
    (hl : l.Pairwise (fun x y => r x y = true)) :
    (ordIns r a l).Pairwise (fun x y => r x y = true) := by
  induction l with
  | nil => simp [ordIns]
  | cons b t ih =>
      simp only [ordIns]
      have hPb : P b := hPl b (by simp)
      by_cases h : r a b
      · rw [if_pos h]
        refine List.pairwise_cons.mpr ⟨?_, hl⟩
        intro x hx
        rcases List.mem_cons.mp hx with rfl | hxt
        · exact h
        · exact htr a b x hPa hPb (hPl x (by simp [hxt])) h
            ((List.pairwise_cons.mp hl).1 x hxt)
      · have hrba : r b a = true := by
          rcases htot a b hPa hPb with h1 | h1
          · exact absurd h1 h
          · exact h1
        rw [if_neg h]
        refine List.pairwise_cons.mpr ⟨?_, ?_⟩
        · intro x hx
          rcases List.mem_cons.mp ((ordIns_perm r a t).mem_iff.mp hx) with rfl | hxt
          · exact hrba
          · exact (List.pairwise_cons.mp hl).1 x hxt
        · exact ih (fun x hx => hPl x (by simp [hx])) (List.pairwise_cons.mp hl).2

theorem pairwise_isort {α : Type} (r : α → α → Bool) (P : α → Prop)
    (htot : ∀ x y, P x → P y → r x y = true ∨ r y x = true)
    (htr : ∀ x y z, P x → P y → P z → r x y = true → r y z = true → r x z = true)
    (l : List α) (hPl : ∀ x ∈ l, P x) :
    (isort r l).Pairwise (fun x y => r x y = true) := by
  induction l with
  | nil => simp [isort]
  | cons a t ih =>
      exact pairwise_ordIns r P htot htr a (isort r t) (hPl a (by simp))
        (fun x hx => hPl x (by simp [(isort_perm r t).mem_iff.mp hx]))
        (ih (fun x hx => hPl x (by simp [hx])))

theorem qKeyLT_asymm {a b : ℚ × ℚ × ℚ} (h1 : qKeyLT a b) (h2 : qKeyLT b a) : False := by
  rcases h1 with h1 | ⟨e1, h1⟩ <;> rcases h2 with h2 | ⟨e2, h2⟩
  · exact absurd (h1.trans h2) (lt_irrefl _)
  · exact absurd h1 (by rw [e2]; exact lt_irrefl _)
  · exact absurd h2 (by rw [e1]; exact lt_irrefl _)
  · rcases h1 with h1 | ⟨f1, h1⟩ <;> rcases h2 with h2 | ⟨f2, h2⟩
    · exact absurd (h1.trans h2) (lt_irrefl _)
    · exact absurd h1 (by rw [f2]; exact lt_irrefl _)
    · exact absurd h2 (by rw [f1]; exact lt_irrefl _)
    · exact absurd (h1.trans h2) (lt_irrefl _)

theorem qKeyLT_or (a b c : ℚ × ℚ × ℚ) (hac : qKeyLT a c) : qKeyLT a b ∨ qKeyLT b c := by
  unfold qKeyLT at *
  obtain ⟨a1, a2, a3⟩ := a
  obtain ⟨b1, b2, b3⟩ := b
  obtain ⟨c1, c2, c3⟩ := c
  simp only at *
  rcases lt_trichotomy a1 b1 with h | h | h
  · exact Or.inl (Or.inl h)
  · subst h
    rcases hac with hac | ⟨e, hac⟩
    · exact Or.inr (Or.inl hac)
    · subst e
      rcases lt_trichotomy a2 b2 with h2 | h2 | h2
      · exact Or.inl (Or.inr ⟨rfl, Or.inl h2⟩)
      · subst h2
        rcases hac with hac | ⟨e2, hac⟩
        · exact Or.inr (Or.inr ⟨rfl, Or.inl hac⟩)
        · subst e2
          rcases lt_trichotomy a3 b3 with h3 | h3 | h3
          · exact Or.inl (Or.inr ⟨rfl, Or.inr ⟨rfl, h3⟩⟩)
          · subst h3
            exact Or.inr (Or.inr ⟨rfl, Or.inr ⟨rfl, hac⟩⟩)
          · exact Or.inr (Or.inr ⟨rfl, Or.inr ⟨rfl, h3.trans hac⟩⟩)
      · rcases hac with hac | ⟨e2, hac⟩
        · exact Or.inr (Or.inr ⟨rfl, Or.inl (h2.trans hac)⟩)
        · exact Or.inr (Or.inr ⟨rfl, Or.inl (by rw [← e2]; exact h2)⟩)
  · rcases hac with hac | ⟨e, hac⟩
    · exact Or.inr (Or.inl (h.trans hac))
    · exact Or.inr (Or.inl (by rw [← e]; exact h))

theorem keyLT_iff {x y : CompRow} (hx : rowDefined x) (hy : rowDefined y) :
    keyLT x y = true ↔ qKeyLT (bkey x) (bkey y) := by
  obtain ⟨hxa, hxr, hxt⟩ := hx
  obtain ⟨hya, hyr, hyt⟩ := hy
  cases ea : x.atrpct with
  | nan => exact absurd ea hxa
  | val xa =>
  cases eb : y.atrpct with
  | nan => exact absurd eb hya
  | val ya =>
  cases er : x.rvol with
  | nan => exact absurd er hxr
  | val xr =>
  cases es : y.rvol with
  | nan => exact absurd es hyr
  | val yr =>
  cases et : x.ret5 with
  | nan => exact absurd et hxt
  | val xt =>
  cases eu : y.ret5 with
  | nan => exact absurd eu hyt
  | val yt =>
  simp only [keyLT, bkey, qKeyLT, ea, eb, er, es, et, eu, peqb, pltb, ptoQ]
  by_cases h1 : xa = ya
  · by_cases h2 : xr = yr
    · simp [h1, h2, lt_irrefl]
    · simp [h1, h2, lt_irrefl]
  · simp [h1]

theorem rowBefore_total {x y : CompRow} (hx : rowDefined x) (hy : rowDefined y) :
    rowBefore x y = true ∨ rowBefore y x = true := by
  by_contra hcon
  push_neg at hcon
  obtain ⟨h1, h2⟩ := hcon
  simp only [rowBefore, Bool.not_eq_true, Bool.not_eq_false'] at h1 h2
  exact qKeyLT_asymm ((keyLT_iff hx hy).mp h1) ((keyLT_iff hy hx).mp h2)

theorem rowBefore_trans {x y z : CompRow} (hx : rowDefined x) (hy : rowDefined y)
    (hz : rowDefined z) (h1 : rowBefore x y = true) (h2 : rowBefore y z = true) :
    rowBefore x z = true := by
  simp only [rowBefore, Bool.not_eq_true'] at h1 h2 ⊢
  by_contra hcon
  simp only [Bool.not_eq_false] at hcon
  rcases qKeyLT_or (bkey x) (bkey y) (bkey z) ((keyLT_iff hx hz).mp hcon) with h | h
  · rw [(keyLT_iff hx hy).mpr h] at h1
    cases h1
  · rw [(keyLT_iff hy hz).mpr h] at h2
    cases h2

theorem mem_canonTickers {x : String} {t : List String} :
    x ∈ canonTickers t ↔ x ∈ t := by
  unfold canonTickers
  rw [List.mem_insertionSort, List.mem_dedup]

theorem canonTickers_nodup (t : List String) : (canonTickers t).Nodup :=
  ((List.perm_insertionSort _ _).nodup_iff).mpr (List.nodup_dedup t)

theorem canonTickers_sorted (t : List String) :
    List.Sorted (fun a b : String => a ≤ b) (canonTickers t) :=
  List.sorted_insertionSort _ _

theorem canonTickers_eq {t1 t2 : List String} (h : ∀ x, x ∈ t1 ↔ x ∈ t2) :
    canonTickers t1 = canonTickers t2 := by
  refine List.eq_of_perm_of_sorted ?_ (canonTickers_sorted t1) (canonTickers_sorted t2)
  refine (List.perm_ext_iff_of_nodup (canonTickers_nodup t1) (canonTickers_nodup t2)).mpr ?_
  intro a
  rw [mem_canonTickers, mem_canonTickers]
  exact h a

theorem canonTickers_ne_nil {t : List String} (h : t ≠ []) : canonTickers t ≠ [] := by
  obtain ⟨x, hx⟩ := List.exists_mem_of_ne_nil t h
  intro hc
  have : x ∈ canonTickers t := mem_canonTickers.mpr hx
  rw [hc] at this
  cases this

theorem rhalfEven_nonneg {x : ℚ} (h : 0 ≤ x) : 0 ≤ rhalfEven x := by
  have hf : (0 : ℤ) ≤ ⌊x⌋ := Int.floor_nonneg.mpr h
  unfold rhalfEven
  split_ifs <;> omega

theorem rhalfEven_le {x : ℚ} {B : ℤ} (h : x ≤ B) : rhalfEven x ≤ B := by
  have hf : ⌊x⌋ ≤ B := by
    have := Int.floor_le_floor h
    rwa [Int.floor_intCast] at this
  have hlt : ¬ x - ⌊x⌋ < 1 / 2 → ⌊x⌋ < B := by
    intro hge
    push_neg at hge
    have h1 : (⌊x⌋ : ℚ) < x := by linarith
    have h2 : (⌊x⌋ : ℚ) < (B : ℚ) := lt_of_lt_of_le h1 h
    exact_mod_cast h2
  unfold rhalfEven
  split_ifs with h1 h2 h3
  · exact hf
  · have := hlt (by intro hc; exact absurd hc (by intro hc2; linarith [hc2, h2])) 
    omega
  · exact hf
  · have := hlt h1
    omega

theorem computeSnapshot_eq_some {d : List Bar} {m : Metrics}
    (h : computeSnapshot d = some m) :
    ∃ last, d.getLast? = some last ∧ m = mkSnap d last := by
  unfold computeSnapshot compute_metrics_for_ticker at h
  cases hd : d.getLast? with
  | none => rw [hd] at h; cases h
  | some last =>
      rw [hd] at h
      simp only [Option.some.injEq] at h
      exact ⟨last, rfl, h.symm⟩

theorem mkSnap_rvol20 (d : List Bar) (last : Bar) :
    (mkSnap d last).rvol20 = pdiv (.val last.volume) (rollMeanLast 20 (d.map Bar.volume)) := rfl

theorem mkSnap_atrpct (d : List Bar) (last : Bar) :
    (mkSnap d last).atrpct
      = pmul (pdiv (rollMeanLast 20 (trList d)) (.val last.close)) (.val 100) := rfl

theorem mkSnap_ret5 (d : List Bar) (last : Bar) :
    (mkSnap d last).ret5
      = if d.length < 6 then .nan
        else .val (last.close / (d.map Bar.close).getD (d.length - 6) 0 - 1) := rfl

theorem mkSnap_close (d : List Bar) (last : Bar) :
    (mkSnap d last).close = .val last.close := rfl

theorem mkSnap_a20 (d : List Bar) (last : Bar) :
    (mkSnap d last).a20 = rollMeanLast 20 (d.map Bar.close) := rfl

theorem mkSnap_a50 (d : List Bar) (last : Bar) :
    (mkSnap d last).a50 = rollMeanLast 50 (d.map Bar.close) := rfl

theorem mkSnap_a200 (d : List Bar) (last : Bar) :
    (mkSnap d last).a200 = rollMeanLast 200 (d.map Bar.close) := rfl

theorem mkSnap_above20 (d : List Bar) (last : Bar) :
    (mkSnap d last).above20
      = .val (if pgtb (.val last.close) (rollMeanLast 20 (d.map Bar.close)) then 1 else 0) := rfl

theorem mkSnap_above50 (d : List Bar) (last : Bar) :
    (mkSnap d last).above50
      = .val (if pgtb (.val last.close) (rollMeanLast 50 (d.map Bar.close)) then 1 else 0) := rfl

theorem mkSnap_above200 (d : List Bar) (last : Bar) :
    (mkSnap d last).above200
      = .val (if pgtb (.val last.close) (rollMeanLast 200 (d.map Bar.close)) then 1 else 0) := rfl

theorem trFrom_length (prev : ℚ) (l : List Bar) : (trFrom prev l).length = l.length := by
  induction l generalizing prev with
  | nil => rfl
  | cons b t ih => simp [trFrom, ih]

theorem trList_length (d : List Bar) : (trList d).length = d.length := by
  cases d with
  | nil => rfl
  | cons b t => simp [trList, trFrom_length]

theorem flag_facts (c : ℚ) (sma : PFloat) :
    (PFloat.val (if pgtb (.val c) sma then (1 : ℚ) else 0) = .val 0
      ∨ PFloat.val (if pgtb (.val c) sma then (1 : ℚ) else 0) = .val 1)
    ∧ (sma = .nan → PFloat.val (if pgtb (.val c) sma then (1 : ℚ) else 0) = .val 0)
    ∧ (∀ q, sma = .val q →
        (PFloat.val (if pgtb (.val c) sma then (1 : ℚ) else 0) = .val 1 ↔ q < c)) := by
  refine ⟨?_, ?_, ?_⟩
  · by_cases h : pgtb (.val c) sma = true
    · right; rw [if_pos h]
    · left; rw [if_neg h]
  · intro h
    subst h
    simp [pgtb]
  · intro q h
    subst h
    simp only [pgtb]
    by_cases h : q < c
    · simp [h]
    · simp [h]

theorem filterMap_id_filter_isSome (l : List (Option Metrics)) :
    (l.filter Option.isSome).filterMap id = l.filterMap id := by
  induction l with
  | nil => rfl
  | cons a t ih =>
      cases a with
      | none => simpa using ih
      | some m => simpa using ih

theorem sector_breadth_congr {l1 l2 : List (Option Metrics)}
    (h : l1.filterMap id = l2.filterMap id) : sector_breadth l1 = sector_breadth l2 := by
  unfold sector_breadth
  rw [h]

theorem filterMap_erase_none {f : String → Option Metrics} {s : String}
    (hf : f s = none) (L : List String) :
    L.filterMap f = (L.filter (fun t => t ≠ s)).filterMap f := by
  induction L with
  | nil => rfl
  | cons a t ih =>
      by_cases h : a = s
      · subst h
        simp [List.filterMap_cons, hf, ih]
      · simp [List.filterMap_cons, List.filter_cons, h, ih]

theorem pick_not_mem (M : List (String × Option Metrics)) (n : ℕ) (t : String)
    (h : ∀ mo, (t, mo) ∈ M → mo = none) :
    t ∉ ((pick_top_components M n).1.map CompRow.ticker)
    ∧ t ∉ ((pick_top_components M n).2.map CompRow.ticker) := by
  have hrows : t ∉ (rowsOf M).map CompRow.ticker := by
    intro hmem
    obtain ⟨r, hr, hrt⟩ := List.mem_map.mp hmem
    obtain ⟨p, hp, hpr⟩ := List.mem_filterMap.mp hr
    obtain ⟨m, hm, hcm⟩ := Option.map_eq_some'.mp hpr
    have : p.2 = none := h p.2 (by { rw [← hrt, ← hcm]; simp [compRowOf]; exact hp })
    rw [this] at hm
    cases hm
  have hsorted : t ∉ (isort rowBefore (rowsOf M)).map CompRow.ticker := by
    intro hmem
    obtain ⟨r, hr, hrt⟩ := List.mem_map.mp hmem
    exact hrows (List.mem_map.mpr ⟨r, (isort_perm rowBefore (rowsOf M)).mem_iff.mp hr, hrt⟩)
  constructor
  · intro hmem
    obtain ⟨r, hr, hrt⟩ := List.mem_map.mp hmem
    have h1 : r ∈ (isort rowBefore (rowsOf M)).filter CompRow.ok :=
      List.mem_of_mem_take hr
    have h2 : r ∈ isort rowBefore (rowsOf M) := List.mem_of_mem_filter h1
    exact hsorted (List.mem_map.mpr ⟨r, h2, hrt⟩)
  · intro hmem
    obtain ⟨r, hr, hrt⟩ := List.mem_map.mp hmem
    have h2 : r ∈ isort rowBefore (rowsOf M) := List.mem_of_mem_take hr
    exact hsorted (List.mem_map.mpr ⟨r, h2, hrt⟩)

/-- C10: the duplicated engine variants are extensionally equal: on every
input, sector_breadth, score_sector (at the default momo_cut 0.0) and
pick_top_components of src/sector_analysis.py return exactly the values of
the functions of the same names in src/fetch_data.py. -/
theorem c10_variants_agree :
    (∀ l, SA.sector_breadth l = sector_breadth l)
    ∧ (∀ m br, SA.score_sector m br (.val 0) = score_sector m br (.val 0))
    ∧ (∀ mm n, SA.pick_top_components mm n = pick_top_components mm n) :=
  ⟨fun _ => rfl, fun _ _ => rfl, fun _ _ => rfl⟩

/-- C6: the universe-resolution step intersects a nonempty selection with
the known eleven-ETF universe (unknown symbols silently dropped), falls
back to the full universe when the selection is None or empty, and raises
an explicit error when the resolved universe is empty, in particular for
the selection ZZZ. -/
theorem c6_universe_resolution :
    sectorKeys.length = 11
    ∧ resolve_etfs none = .ok sectorKeys
    ∧ resolve_etfs (some []) = .ok sectorKeys
    ∧ (∀ l, l ≠ [] → l.filter (fun e => sectorKeys.contains e) ≠ [] →
        resolve_etfs (some l) = .ok (l.filter (fun e => sectorKeys.contains e)))
    ∧ (∀ l, l ≠ [] → l.filter (fun e => sectorKeys.contains e) = [] →
        resolve_etfs (some l) = .error "No valid sector ETFs provided")
    ∧ resolve_etfs (some ["ZZZ"]) = .error "No valid sector ETFs provided" := by
  refine ⟨by rfl, by rfl, by rfl, ?_, ?_, by rfl⟩
  · intro l hl hfil
    simp only [resolve_etfs, if_neg hl, if_neg hfil]
  · intro l hl hfil
    simp only [resolve_etfs, if_neg hl]
    rw [hfil]
    rfl

/-- Witness for C6: a mixed known/unknown selection resolves to its known
part. -/
theorem c6_witness : resolve_etfs (some ["XLK", "FOO"]) = .ok ["XLK"] := by
  have h := c6_universe_resolution.2.2.2.1 ["XLK", "FOO"] (by decide) (by decide)
  rw [h]
  rfl

/-- C3: breadth is the arithmetic mean of the above20 flags over exactly
the leaders that have a snapshot (given that those flags are defined, as
every snapshot the engine builds guarantees), is NaN exactly when no leader
has a snapshot, and a leader with no snapshot contributes to neither the
numerator nor the denominator. -/
theorem c3_breadth_mean :
    (∀ l : List (Option Metrics), (∀ m ∈ l.filterMap id, m.above20 ≠ PFloat.nan) →
      (sector_breadth l = .nan ↔ l.filterMap id = []))
    ∧ (∀ l : List (Option Metrics), (∀ m ∈ l.filterMap id, m.above20 ≠ PFloat.nan) →
      l.filterMap id ≠ [] →
      sector_breadth l =
        .val ((((l.filterMap id).map (fun m => ptoQ m.above20)).sum) /
          ((l.filterMap id).length : ℚ)))
    ∧ (∀ pre post : List (Option Metrics),
      sector_breadth (pre ++ none :: post) = sector_breadth (pre ++ post)) := by
  have key : ∀ l : List (Option Metrics), (∀ m ∈ l.filterMap id, m.above20 ≠ PFloat.nan) →
      l.filterMap id ≠ [] →
      sector_breadth l =
        .val ((((l.filterMap id).map (fun m => ptoQ m.above20)).sum) /
          ((l.filterMap id).length : ℚ)) := by
    intro l hdef hne
    unfold sector_breadth pmean
    have hlen : ((l.filterMap id).map Metrics.above20).length = (l.filterMap id).length :=
      List.length_map _ _
    have hlenne : ((l.filterMap id).map Metrics.above20).length ≠ 0 := by
      rw [hlen]
      exact fun hc => hne (List.length_eq_zero.mp hc)
    have hany : ((l.filterMap id).map Metrics.above20).any pisnan = false := by
      rw [List.any_eq_false]
      intro x hx
      obtain ⟨m, hm, hxm⟩ := List.mem_map.mp hx
      intro hc
      apply hdef m hm
      cases hmx : m.above20 with
      | nan => rfl
      | val q => rw [← hxm, hmx] at hc; cases hc
    have hne0 : ¬ (l.filterMap id).length = 0 := fun hc => hne (List.length_eq_zero.mp hc)
    simp only [hany, hlen, Bool.false_eq_true, if_false, if_neg hne0]
    rw [List.map_map]
    rfl
  constructor
  · intro l hdef
    constructor
    · intro hnan
      by_contra hne
      rw [key l hdef hne] at hnan
      cases hnan
    · intro hempty
      unfold sector_breadth
      simp [hempty]
  · exact ⟨key, fun pre post => sector_breadth_congr (by simp)⟩

/-- Witness for C3: one leader above, one with no snapshot, one below gives
breadth one half. -/
theorem c3_witness : sector_breadth [some wma, none, some wmb] = .val (1 / 2) := by
  have h := c3_breadth_mean.2.1 [some wma, none, some wmb] (by decide) (by decide)
  rw [h]
  simp [wma, wmb, mjunk, ptoQ]

/-- C8: a snapshot built from fewer than 20 bars has undefined rvol20 and
atrpct; fewer than 6 bars leaves ret5 undefined; exactly 6 bars yields a
defined ret5. -/
theorem c8_window_thresholds :
    ∀ (d : List Bar) (m : Metrics), computeSnapshot d = some m →
      (d.length < 20 → m.rvol20 = .nan ∧ m.atrpct = .nan)
      ∧ (d.length < 6 → m.ret5 = .nan)
      ∧ (d.length = 6 → ∃ q, m.ret5 = .val q) := by
  intro d m h
  obtain ⟨last, hlast, rfl⟩ := computeSnapshot_eq_some h
  refine ⟨?_, ?_, ?_⟩
  · intro h20
    constructor
    · simp [mkSnap_rvol20, rollMeanLast, List.length_map, h20, pdiv]
    · simp [mkSnap_atrpct, rollMeanLast, trList_length, h20, pdiv, pmul]
  · intro h6
    simp [mkSnap_ret5, h6]
  · intro h6
    have hn : ¬ d.length < 6 := by omega
    rw [mkSnap_ret5, if_neg hn]
    exact ⟨_, rfl⟩

/-- Witness for C8: six bars give undefined rvol20 and atrpct but a defined
ret5. -/
theorem c8_witness :
    w6m.rvol20 = PFloat.nan ∧ w6m.atrpct = PFloat.nan ∧ ∃ q, w6m.ret5 = .val q := by
  have h := c8_window_thresholds w6 w6m (by rfl)
  exact ⟨(h.1 (by decide)).1, (h.1 (by decide)).2, h.2.2 (by decide)⟩

/-- C9: every snapshot's above20/above50/above200 flag is a concrete 0/1
value, stored as exactly the indicator of latest close strictly above the
corresponding moving-average field, true iff the moving average is defined
and strictly below the latest close, and false (not undefined) whenever the
moving average is itself undefined. -/
theorem c9_above_flags :
    ∀ (d : List Bar) (m : Metrics), computeSnapshot d = some m →
      ((m.above20 = .val 0 ∨ m.above20 = .val 1)
        ∧ m.a20 = rollMeanLast 20 (d.map Bar.close)
        ∧ (m.a20 = .nan → m.above20 = .val 0)
        ∧ (∀ q c, m.a20 = .val q → m.close = .val c → (m.above20 = .val 1 ↔ q < c)))
      ∧ ((m.above50 = .val 0 ∨ m.above50 = .val 1)
        ∧ m.a50 = rollMeanLast 50 (d.map Bar.close)
        ∧ (m.a50 = .nan → m.above50 = .val 0)
        ∧ (∀ q c, m.a50 = .val q → m.close = .val c → (m.above50 = .val 1 ↔ q < c)))
      ∧ ((m.above200 = .val 0 ∨ m.above200 = .val 1)
        ∧ m.a200 = rollMeanLast 200 (d.map Bar.close)
        ∧ (m.a200 = .nan → m.above200 = .val 0)
        ∧ (∀ q c, m.a200 = .val q → m.close = .val c → (m.above200 = .val 1 ↔ q < c))) := by
  intro d m h
  obtain ⟨last, hlast, rfl⟩ := computeSnapshot_eq_some h
  refine ⟨?_, ?_, ?_⟩
  · have hf := flag_facts last.close (rollMeanLast 20 (d.map Bar.close))
    rw [mkSnap_above20, mkSnap_a20, mkSnap_close]
    refine ⟨hf.1, rfl, hf.2.1, ?_⟩
    intro q c hq hc
    have hcc : c = last.close := by
      have := hc.symm
      cases this
      rfl
    subst hcc
    exact hf.2.2 q hq
  · have hf := flag_facts last.close (rollMeanLast 50 (d.map Bar.close))
    rw [mkSnap_above50, mkSnap_a50, mkSnap_close]
    refine ⟨hf.1, rfl, hf.2.1, ?_⟩
    intro q c hq hc
    have hcc : c = last.close := by
      have := hc.symm
      cases this
      rfl
    subst hcc
    exact hf.2.2 q hq
  · have hf := flag_facts last.close (rollMeanLast 200 (d.map Bar.close))
    rw [mkSnap_above200, mkSnap_a200, mkSnap_close]
    refine ⟨hf.1, rfl, hf.2.1, ?_⟩
    intro q c hq hc
    have hcc : c = last.close := by
      have := hc.symm
      cases this
      rfl
    subst hcc
    exact hf.2.2 q hq

/-- Witness for C9: with a single bar every moving average is undefined and
every flag is concretely 0, not undefined. -/
theorem c9_witness :
    w1m.above20 = .val 0 ∧ w1m.above50 = .val 0 ∧ w1m.above200 = .val 0 := by
  have h := c9_above_flags [wbar] w1m (by rfl)
  exact ⟨h.1.2.2.1 (by rfl), h.2.1.2.2.1 (by rfl), h.2.2.2.2.1 (by rfl)⟩

/-- C1 (amended): the score is NaN when the ETF snapshot is missing, and
for every snapshot the engine builds whose rvol20 and ret5 are themselves
defined the score is a defined number for every breadth value, NaN breadth
included; but a snapshot with undefined rvol20 or ret5 (too little
history) propagates NaN into the score even though the snapshot exists. -/
theorem c1_score_nan_exactly :
    (∀ br mc, score_sector none br mc = PFloat.nan)
    ∧ (∀ (d : List Bar) (m : Metrics) (br : PFloat), computeSnapshot d = some m →
        m.rvol20 ≠ PFloat.nan → m.ret5 ≠ PFloat.nan →
        ∃ s : ℚ, score_sector (some m) br (.val 0) = .val s) := by
  constructor
  · intro br mc
    rfl
  · intro d m br h hrv hrt
    obtain ⟨last, hlast, rfl⟩ := computeSnapshot_eq_some h
    cases erv : (mkSnap d last).rvol20 with
    | nan => exact absurd erv hrv
    | val rv =>
    cases eret : (mkSnap d last).ret5 with
    | nan => exact absurd eret hrt
    | val rt =>
    cases br with
    | nan =>
        simp only [score_sector, erv, eret, mkSnap_above20, mkSnap_above50, mkSnap_above200]
        simp [pdiv, pmin, padd, pmul, pmax, pclip01, pisnan, pround1]
    | val b =>
        simp only [score_sector, erv, eret, mkSnap_above20, mkSnap_above50, mkSnap_above200]
        simp [pdiv, pmin, padd, pmul, pmax, pclip01, pisnan, pround1]

/-- Counterexample to C1 as stated: a snapshot the engine actually builds
from a single bar is not None, yet the score is NaN even with a defined
breadth, because its rvol20 and ret5 are undefined. -/
theorem c1_counterexample :
    computeSnapshot [wbar] ≠ none
    ∧ score_sector (computeSnapshot [wbar]) (.val 1) (.val 0) = PFloat.nan := by
  exact ⟨by decide, by decide⟩

/-- Witness for C1: a twenty-bar snapshot scores to a defined number even
against NaN breadth. -/
theorem c1_witness : ∃ s : ℚ, score_sector (some wm20) PFloat.nan (.val 0) = .val s :=
  c1_score_nan_exactly.2 wd20 wm20 PFloat.nan (by rfl) (by decide) (by decide)

theorem rhalfEven_intCast (n : ℤ) : rhalfEven (n : ℚ) = n := by
  simp [rhalfEven, Int.floor_intCast]

/-- C2 (amended): the score is the one-decimal rounding of the stated
weighted sum, but the volume and breadth sub-scores are only capped from
above, never clamped into the unit interval; whenever rvol20 is
nonnegative and the breadth argument is NaN or lies in the unit interval
(as the pipeline guarantees), every sub-score lies in the unit interval and
the defined score lies in the 0 to 100 range. -/
theorem c2_score_formula_range (m : Metrics) (br : PFloat) (r t f20 f50 f200 bq : ℚ)
    (hr : m.rvol20 = .val r) (hr0 : 0 ≤ r)
    (ht : m.ret5 = .val t)
    (h20 : m.above20 = .val f20) (h20b : f20 = 0 ∨ f20 = 1)
    (h50 : m.above50 = .val f50) (h50b : f50 = 0 ∨ f50 = 1)
    (h200 : m.above200 = .val f200) (h200b : f200 = 0 ∨ f200 = 1)
    (hbr : (br = PFloat.nan ∧ bq = 0) ∨ (br = .val bq ∧ 0 ≤ bq ∧ bq ≤ 1)) :
    (0 ≤ min r 2 / 2 ∧ min r 2 / 2 ≤ 1)
    ∧ (0 ≤ (f20 + f50 + f200) / 3 ∧ (f20 + f50 + f200) / 3 ≤ 1)
    ∧ (0 ≤ bq ∧ bq ≤ 1)
    ∧ (0 ≤ min 1 (max 0 ((max t 0 + 1 / 20) / (1 / 10)))
        ∧ min 1 (max 0 ((max t 0 + 1 / 20) / (1 / 10))) ≤ 1)
    ∧ ∃ s : ℚ,
        score_sector (some m) br (.val 0) = .val s
        ∧ s = (rhalfEven (10 * (40 * (min r 2 / 2) + 20 * ((f20 + f50 + f200) / 3)
            + 25 * bq + 15 * min 1 (max 0 ((max t 0 + 1 / 20) / (1 / 10))))) : ℚ) / 10
        ∧ 0 ≤ s ∧ s ≤ 100 := by
  have hb1 : 0 ≤ min r 2 / 2 ∧ min r 2 / 2 ≤ 1 := by
    constructor
    · have h := le_min hr0 (by norm_num : (0 : ℚ) ≤ 2)
      linarith
    · have h := min_le_right r 2
      linarith
  have hb2 : 0 ≤ (f20 + f50 + f200) / 3 ∧ (f20 + f50 + f200) / 3 ≤ 1 := by
    rcases h20b with rfl | rfl <;> rcases h50b with rfl | rfl <;>
      rcases h200b with rfl | rfl <;> norm_num
  have hb3 : 0 ≤ bq ∧ bq ≤ 1 := by
    rcases hbr with ⟨_, rfl⟩ | ⟨_, hx, hy⟩
    · norm_num
    · exact ⟨hx, hy⟩
  have hb4 : 0 ≤ min 1 (max 0 ((max t 0 + 1 / 20) / (1 / 10)))
      ∧ min 1 (max 0 ((max t 0 + 1 / 20) / (1 / 10))) ≤ 1 :=
    ⟨le_min (by norm_num) (le_max_left 0 _), min_le_left _ _⟩
  refine ⟨hb1, hb2, hb3, hb4, ?_⟩
  have hS0 : 0 ≤ 40 * (min r 2 / 2) + 20 * ((f20 + f50 + f200) / 3)
      + 25 * bq + 15 * min 1 (max 0 ((max t 0 + 1 / 20) / (1 / 10))) := by
    linarith [hb1.1, hb2.1, hb3.1, hb4.1]
  have hS100 : 40 * (min r 2 / 2) + 20 * ((f20 + f50 + f200) / 3)
      + 25 * bq + 15 * min 1 (max 0 ((max t 0 + 1 / 20) / (1 / 10))) ≤ 100 := by
    linarith [hb1.2, hb2.2, hb3.2, hb4.2]
  have hscore : score_sector (some m) br (.val 0)
      = .val ((rhalfEven (10 * (40 * (min r 2 / 2) + 20 * ((f20 + f50 + f200) / 3)
          + 25 * bq + 15 * min 1 (max 0 ((max t 0 + 1 / 20) / (1 / 10))))) : ℚ) / 10) := by
    rcases hbr with ⟨rfl, rfl⟩ | ⟨rfl, _, _⟩
    · simp only [score_sector, hr, ht, h20, h50, h200, pisnan, pmin, pdiv, padd, pmul,
        pmax, pclip01, pround1, if_true]
    · simp only [score_sector, hr, ht, h20, h50, h200, pisnan, pmin, pdiv, padd, pmul,
        pmax, pclip01, pround1, Bool.false_eq_true, if_false]
  refine ⟨_, hscore, rfl, ?_, ?_⟩
  · have h1 := rhalfEven_nonneg (show (0 : ℚ) ≤ 10 * (40 * (min r 2 / 2)
      + 20 * ((f20 + f50 + f200) / 3) + 25 * bq
      + 15 * min 1 (max 0 ((max t 0 + 1 / 20) / (1 / 10)))) by linarith)
    have h2 : (0 : ℚ) ≤ (rhalfEven (10 * (40 * (min r 2 / 2)
      + 20 * ((f20 + f50 + f200) / 3) + 25 * bq
      + 15 * min 1 (max 0 ((max t 0 + 1 / 20) / (1 / 10))))) : ℚ) := by
      exact_mod_cast h1
    linarith
  · have h1 : rhalfEven (10 * (40 * (min r 2 / 2)
      + 20 * ((f20 + f50 + f200) / 3) + 25 * bq
      + 15 * min 1 (max 0 ((max t 0 + 1 / 20) / (1 / 10))))) ≤ (1000 : ℤ) := by
      apply rhalfEven_le
      push_cast
      linarith
    have h2 : ((rhalfEven (10 * (40 * (min r 2 / 2)
      + 20 * ((f20 + f50 + f200) / 3) + 25 * bq
      + 15 * min 1 (max 0 ((max t 0 + 1 / 20) / (1 / 10))))) : ℚ)) ≤ 1000 := by
      exact_mod_cast h1
    linarith

/-- Counterexample to C2 as stated: a breadth argument outside the unit
interval, or a negative rvol20, passes unclamped into the weighted sum, so
the defined score leaves the 0 to 100 range on both ends: the example
snapshot against breadth 10 scores 316.5, and a negative-rvol20 snapshot
against breadth 1 scores minus 164.5. -/
theorem c2_counterexample :
    (score_sector (some mex) (.val 10) (.val 0) = .val (633 / 2) ∧ (100 : ℚ) < 633 / 2)
    ∧ (score_sector (some mbad) (.val 1) (.val 0) = .val (-329 / 2)
        ∧ (-329 / 2 : ℚ) < 0) := by
  refine ⟨⟨?_, by norm_num⟩, ?_, by norm_num⟩
  · have h : score_sector (some mex) (.val 10) (.val 0)
        = .val ((rhalfEven (10 * (40 * (min (9 / 5 : ℚ) 2 / 2) + 20 * (((1 : ℚ) + 1 + 1) / 3)
            + 25 * 10 + 15 * min 1 (max 0 ((max (1 / 50 : ℚ) 0 + 1 / 20) / (1 / 10))))) : ℚ)
            / 10) := by
      simp only [score_sector, mex, mjunk, pisnan, pmin, pdiv, padd, pmul, pmax, pclip01,
        pround1, Bool.false_eq_true, if_false]
    rw [h]
    norm_num [min_def, max_def]
    rw [show ((3165 : ℚ)) = ((3165 : ℤ) : ℚ) by norm_num, rhalfEven_intCast]
    norm_num
  · have h : score_sector (some mbad) (.val 1) (.val 0)
        = .val ((rhalfEven (10 * (40 * (min (-10 : ℚ) 2 / 2) + 20 * (((0 : ℚ) + 0 + 0) / 3)
            + 25 * 1 + 15 * min 1 (max 0 ((max (1 / 50 : ℚ) 0 + 1 / 20) / (1 / 10))))) : ℚ)
            / 10) := by
      simp only [score_sector, mbad, mjunk, pisnan, pmin, pdiv, padd, pmul, pmax, pclip01,
        pround1, Bool.false_eq_true, if_false]
    rw [h]
    norm_num [min_def, max_def]
    rw [show ((-1645 : ℚ)) = ((-1645 : ℤ) : ℚ) by norm_num, rhalfEven_intCast]
    norm_num

/-- Witness for C2: the example snapshot (rvol20 1.8, all flags set, ret5
0.02) with breadth 1 scores exactly 91.5, inside the 0 to 100 range. -/
theorem c2_witness :
    score_sector (some mex) (.val 1) (.val 0) = .val (183 / 2)
    ∧ (0 : ℚ) ≤ 183 / 2 ∧ (183 / 2 : ℚ) ≤ 100 := by
  obtain ⟨h1, h2, h3, h4, s, hs, hsv, hs0, hs100⟩ :=
    c2_score_formula_range mex (.val 1) (9 / 5) (1 / 50) 1 1 1 1 rfl (by norm_num) rfl rfl
      (Or.inr rfl) rfl (Or.inr rfl) rfl (Or.inr rfl) (Or.inr ⟨rfl, by norm_num, by norm_num⟩)
  have hs2 : s = 183 / 2 := by
    rw [hsv]
    norm_num [min_def, max_def]
    rw [show ((915 : ℚ)) = ((915 : ℤ) : ℚ) by norm_num, rhalfEven_intCast]
    norm_num
  exact ⟨hs2 ▸ hs, by norm_num, by norm_num⟩

/-- C5: two cached downloads with set-equal ticker lists and the same
window return the identical stored dataset with exactly one underlying
fetch across both calls; the miss stores the result under the canonical
(sorted unique tickers, window) key. -/
theorem c5_cache {D : Type} (fetch : List String → ℕ → D) (t1 t2 : List String)
    (p : ℕ) (st : CacheState D)
    (hset : ∀ x, x ∈ t1 ↔ x ∈ t2) (hne : t1 ≠ [])
    (hmiss : cacheLookup (canonTickers t1, p) st.entries = none) :
    ∃ (d : D) (st1 : CacheState D),
      download_daily fetch t1 p st = .ok (d, st1)
      ∧ d = fetch (canonTickers t1) p
      ∧ st1.fetchCount = st.fetchCount + 1
      ∧ cacheLookup (canonTickers t1, p) st1.entries = some d
      ∧ download_daily fetch t2 p st1 = .ok (d, st1) := by
  have hcanon : canonTickers t1 = canonTickers t2 := canonTickers_eq hset
  have hcn : canonTickers t1 ≠ [] := canonTickers_ne_nil hne
  have hcn2 : canonTickers t2 ≠ [] := by rwa [← hcanon]
  refine ⟨fetch (canonTickers t1) p,
    ⟨((canonTickers t1, p), fetch (canonTickers t1) p) :: st.entries, st.fetchCount + 1⟩,
    ?_, rfl, rfl, ?_, ?_⟩
  · unfold download_daily
    rw [if_neg hcn, hmiss]
  · simp [cacheLookup]
  · unfold download_daily
    rw [if_neg hcn2, ← hcanon]
    simp [cacheLookup]

/-- Witness for C5: two calls with ticker lists equal as sets, starting
from an empty cache, return one identical dataset with one fetch. -/
theorem c5_witness :
    ∃ (d : ℕ) (st1 : CacheState ℕ),
      download_daily wfetch ["B", "A"] 220 ⟨[], 0⟩ = .ok (d, st1)
      ∧ d = wfetch (canonTickers ["B", "A"]) 220
      ∧ st1.fetchCount = 0 + 1
      ∧ cacheLookup (canonTickers ["B", "A"], 220) st1.entries = some d
      ∧ download_daily wfetch ["A", "B", "B"] 220 st1 = .ok (d, st1) :=
  c5_cache wfetch ["B", "A"] ["A", "B", "B"] 220 ⟨[], 0⟩
    (by intro x; simp only [List.mem_cons, List.not_mem_nil, or_false]; tauto)
    (by decide) rfl

theorem filterMap_id_map (f : String → Option Metrics) (L : List String) :
    (L.map f).filterMap id = L.filterMap f := by
  induction L with
  | nil => rfl
  | cons a t ih => simp [List.filterMap_cons, ih]

/-- C7: a per-symbol failure of slicing or indicator computation is
recorded as "no snapshot" for that symbol only: every sector still gets a
row, breadth over a leader list is the breadth with the failed symbol
removed, the failed symbol's map entry is invisible to candidate
selection, and a symbol whose entries are all snapshot-less appears in
neither candidate list. -/
theorem c7_symbol_isolation
    (slice : String → Except String (List Bar))
    (comp : List Bar → Except String (Option Metrics))
    (s : String)
    (hs : ∀ bars, slice s = .ok bars → ∃ e, comp bars = .error e) :
    metricsOf slice comp s = none
    ∧ (∀ etfs, (build_sector_rows (metricsOf slice comp) etfs).length = etfs.length)
    ∧ (∀ L : List String,
        sector_breadth ((L.map (metricsOf slice comp)).filter Option.isSome)
          = sector_breadth (((L.filter (fun t => t ≠ s)).map
              (metricsOf slice comp)).filter Option.isSome))
    ∧ (∀ pre post n, pick_top_components (pre ++ (s, metricsOf slice comp s) :: post) n
          = pick_top_components (pre ++ post) n)
    ∧ (∀ M n, (∀ mo, (s, mo) ∈ M → mo = none) →
        s ∉ ((pick_top_components M n).1.map CompRow.ticker)
        ∧ s ∉ ((pick_top_components M n).2.map CompRow.ticker)) := by
  have hnone : metricsOf slice comp s = none := by
    unfold metricsOf
    cases hsl : slice s with
    | error e => rfl
    | ok bars =>
        by_cases hb : bars = []
        · simp [hb]
        · obtain ⟨e, he⟩ := hs bars hsl
          simp [hb, he]
  refine ⟨hnone, ?_, ?_, ?_, ?_⟩
  · intro etfs
    exact List.length_map _ _
  · intro L
    apply sector_breadth_congr
    rw [filterMap_id_filter_isSome, filterMap_id_filter_isSome,
      filterMap_id_map, filterMap_id_map]
    exact filterMap_erase_none hnone L
  · intro pre post n
    have hrows : (pre ++ (s, metricsOf slice comp s) :: post).filterMap
        (fun p => p.2.map (compRowOf p.1))
        = (pre ++ post).filterMap (fun p => p.2.map (compRowOf p.1)) := by
      rw [hnone]
      simp [List.filterMap_append, List.filterMap_cons]
    simp only [pick_top_components, hrows]
  · intro M n h
    exact pick_not_mem M n s h

/-- Witness for C7: a symbol whose indicator computation raises is
recorded as having no snapshot. -/
theorem c7_witness : metricsOf wslice wcomp "NVDA" = none :=
  (c7_symbol_isolation wslice wcomp "NVDA" (fun _ _ => ⟨"boom", rfl⟩)).1

theorem peqb_val_iff (a : PFloat) (q : ℚ) : peqb a (.val q) = true ↔ a = .val q := by
  cases a <;> simp [peqb]

theorem compRowOf_defined {t : String} {m : Metrics}
    (h : m.atrpct ≠ PFloat.nan ∧ m.rvol20 ≠ PFloat.nan ∧ m.ret5 ≠ PFloat.nan) :
    rowDefined (compRowOf t m) := by
  exact ⟨h.1, h.2.1, h.2.2⟩

/-- C4: pick_top_components builds one row per ticker with a snapshot with
the stated eligibility flag, sorts the rows descending by the strict
lexicographic key (atrpct, rvol20, ret5) (stated over defined keys, where
the float comparison is the rational one), returns the eligible subsequence
of the sorted order truncated to n and the full sorted order truncated to
n, and tickers without a snapshot appear in neither list. -/
theorem c4_pick_top (mm : List (String × Option Metrics)) (n : ℕ)
    (hdef : ∀ t m, (t, some m) ∈ mm →
      m.atrpct ≠ PFloat.nan ∧ m.rvol20 ≠ PFloat.nan ∧ m.ret5 ≠ PFloat.nan) :
    ((pick_top_components mm n).2 = (isort rowBefore (rowsOf mm)).take n
      ∧ (pick_top_components mm n).1
          = ((isort rowBefore (rowsOf mm)).filter CompRow.ok).take n)
    ∧ List.Perm (isort rowBefore (rowsOf mm)) (rowsOf mm)
    ∧ (isort rowBefore (rowsOf mm)).Pairwise (fun x y => ¬ qKeyLT (bkey x) (bkey y))
    ∧ (∀ t m, (t, some m) ∈ mm → compRowOf t m ∈ rowsOf mm)
    ∧ (∀ t m, ((compRowOf t m).ok = true
        ↔ (m.above20 = .val 1 ∧ pgtb m.rvol20 (.val (6 / 5)) = true
            ∧ pgeb m.atrpct (.val 2) = true)))
    ∧ (∀ t, (∀ mo, (t, mo) ∈ mm → mo = none) →
        t ∉ ((pick_top_components mm n).1.map CompRow.ticker)
        ∧ t ∉ ((pick_top_components mm n).2.map CompRow.ticker)) := by
  have hrowdef : ∀ x ∈ rowsOf mm, rowDefined x := by
    intro x hx
    obtain ⟨p, hp, hpx⟩ := List.mem_filterMap.mp hx
    obtain ⟨m, hm, hcm⟩ := Option.map_eq_some'.mp hpx
    have h2 : (p.1, some m) ∈ mm := by
      rw [← hm, Prod.mk.eta]
      exact hp
    rw [← hcm]
    exact compRowOf_defined (hdef p.1 m h2)
  refine ⟨⟨rfl, rfl⟩, isort_perm rowBefore (rowsOf mm), ?_, ?_, ?_, ?_⟩
  · have hsorted := pairwise_isort rowBefore rowDefined
      (fun x y hx hy => rowBefore_total hx hy)
      (fun x y z hx hy hz h1 h2 => rowBefore_trans hx hy hz h1 h2)
      (rowsOf mm) hrowdef
    refine List.Pairwise.imp_of_mem ?_ hsorted
    intro a b ha hb hr
    have hda : rowDefined a :=
      hrowdef a ((isort_perm rowBefore (rowsOf mm)).mem_iff.mp ha)
    have hdb : rowDefined b :=
      hrowdef b ((isort_perm rowBefore (rowsOf mm)).mem_iff.mp hb)
    intro hq
    have : keyLT a b = true := (keyLT_iff hda hdb).mpr hq
    rw [rowBefore, this] at hr
    cases hr
  · intro t m h
    exact List.mem_filterMap.mpr ⟨(t, some m), h, rfl⟩
  · intro t m
    simp only [compRowOf, Bool.and_eq_true, peqb_val_iff]
    tauto
  · intro t h
    exact pick_not_mem mm n t h

/-- Witness for C4: on a concrete map with a missing snapshot the
snapshot-less ticker appears in neither output of the selector. -/
theorem c4_witness :
    "B" ∉ ((pick_top_components wmm 3).1.map CompRow.ticker)
    ∧ "B" ∉ ((pick_top_components wmm 3).2.map CompRow.ticker) := by
  refine (c4_pick_top wmm 3 ?_).2.2.2.2.2 "B" ?_
  · intro t m hm
    simp only [wmm, List.mem_cons, List.not_mem_nil, or_false, Prod.mk.injEq,
      Option.some.injEq, reduceCtorEq, and_false, false_or] at hm
    rcases hm with ⟨rfl, rfl⟩ | ⟨rfl, rfl⟩ <;> exact ⟨by decide, by decide, by decide⟩
  · intro mo hmo
    simp only [wmm, List.mem_cons, List.not_mem_nil, or_false, Prod.mk.injEq] at hmo
    rcases hmo with ⟨hb, _⟩ | ⟨_, hmo⟩ | ⟨hb, _⟩
    · exact absurd hb (by decide)
    · exact hmo
    · exact absurd hb (by decide)
